import Mathlib

/-!
# k8s-curl: the reconciliation pipeline of `main.go`

`curlConfigMap` turns one observed ConfigMap snapshot into zero or one call of
`UpdateData`.  The collaborators it consumes (`PageFetcherFromString`, the
fetcher's `Exclude` and `Fetch`, and the `DataUpdater`) live outside `main.go`;
they are taken here as a record of arbitrary, possibly stateful, functions over
an abstract world `σ`.  Every call that `curlConfigMap` makes and every log
entry it emits is recorded, in program order, in a trace.
-/

namespace K8sCurl

/-- A Go `map[string]string`: finitely many entries, keys unique. -/
abbrev GoMap := AList (fun _ : String => String)

/-- Go's `len(m)` for a map. -/
def GoMap.len (m : GoMap) : Nat := m.entries.length

/-- The constant `curlAnnotation` of main.go:13. -/
def curlAnnotation : String := "x-k8s.io/curl-me-that"

/-- The fields of `core_v1.ConfigMap` that `main.go` reads. -/
structure ConfigMap where
  Name : String
  Namespace : String
  Annotations : GoMap
  Data : GoMap

/-- The two logrus levels used by `curlConfigMap`. -/
inductive Level where
  | info
  | error
deriving DecidableEq, Repr

/-- One emitted log entry: level, the two logger fields set at main.go:20-23,
the message, the error attached by `WithError` and the mapping attached by
`WithField("data", _)`. -/
structure Entry (ε : Type) where
  level : Level
  name : String
  ns : String
  msg : String
  err : Option ε
  data : Option GoMap

/-- What `curlConfigMap` does that is visible outside it: a call to one of its
collaborators (recorded with its arguments and, for `Fetch` and `UpdateData`,
with what it returned) or a log entry. -/
inductive Event (φ ε : Type) where
  | parse (urls : String)
  | exclude (fetcher : φ) (existing : GoMap)
  | fetch (fetcher : φ) (data : GoMap) (err : Option ε)
  | update (configMap : ConfigMap) (data : GoMap) (err : Option ε)
  | log (entry : Entry ε)

/-- The collaborators of `curlConfigMap`, each an arbitrary function of its
arguments and of the state of the outside world, which it may change.  `φ` is
the fetcher, `ε` the error type.  `Exclude` has a pointer receiver and mutates
the fetcher, so it returns the fetcher it leaves behind. -/
structure Collaborators (σ φ ε : Type) where
  PageFetcherFromString : String → σ → Except ε φ × σ
  Exclude : φ → GoMap → σ → φ × σ
  Fetch : φ → σ → (GoMap × Option ε) × σ
  UpdateData : ConfigMap → GoMap → σ → Option ε × σ

variable {σ φ ε : Type}

/-- The logger of main.go:20-23 writing one entry. -/
def logEvent (configMap : ConfigMap) (lvl : Level) (msg : String)
    (err : Option ε) (data : Option GoMap) : Event φ ε :=
  Event.log ⟨lvl, configMap.Name, configMap.Namespace, msg, err, data⟩

/-- The entry of main.go:43, written only when `Fetch` returned an error. -/
def fetchLog (configMap : ConfigMap) : Option ε → List (Event φ ε)
  | some e => [logEvent configMap Level.error "Cannot fetch URLs" (some e) none]
  | none => []

/-- The entry written after `UpdateData` returned: main.go:54 on an error,
main.go:58 otherwise. -/
def updateLog (configMap : ConfigMap) (data : GoMap) : Option ε → Event φ ε
  | some e => logEvent configMap Level.error "Cannot add data" (some e) none
  | none => logEvent configMap Level.info "Curled data into ConfigMap" none (some data)

/-- The function `curlConfigMap` of main.go:19-59: the trace of one
reconciliation and the world it leaves. -/
def curlConfigMap (c : Collaborators σ φ ε) (configMap : ConfigMap) (w : σ) :
    List (Event φ ε) × σ :=
  match configMap.Annotations.lookup curlAnnotation with
  | none =>
    ([logEvent configMap Level.info "Skipping configmap without annotation" none none], w)
  | some urls =>
    match c.PageFetcherFromString urls w with
    | (Except.error err, w1) =>
      ([Event.parse urls,
        logEvent configMap Level.error "Cannot parse URLs" (some err) none], w1)
    | (Except.ok fetcher, w1) =>
      match c.Exclude fetcher configMap.Data w1 with
      | (fetcher1, w2) =>
        match c.Fetch fetcher1 w2 with
        | ((data, err), w3) =>
          let calls : List (Event φ ε) :=
            [Event.parse urls, Event.exclude fetcher configMap.Data,
              Event.fetch fetcher1 data err] ++ fetchLog configMap err
          if data.len = 0 then
            (calls ++
              [logEvent configMap Level.info "Leaving configmap already processed"
                none none], w3)
          else
            match c.UpdateData configMap data w3 with
            | (some e, w4) =>
              (calls ++ [Event.update configMap data (some e),
                logEvent configMap Level.error "Cannot add data" (some e) none], w4)
            | (none, w4) =>
              (calls ++ [Event.update configMap data none,
                logEvent configMap Level.info "Curled data into ConfigMap"
                  none (some data)], w4)

/-- The loop of main.go:86-88 over the snapshots the channel delivers before
it is closed: one trace per iteration, and the world left at the end. -/
def mainLoop (c : Collaborators σ φ ε) : List ConfigMap → σ → List (List (Event φ ε)) × σ
  | [], w => ([], w)
  | configmap :: rest, w =>
    match curlConfigMap c configmap w with
    | (t, w1) =>
      match mainLoop c rest w1 with
      | (ts, w2) => (t :: ts, w2)

/-! ## Reading a trace -/

/-- The arguments of the calls to `PageFetcherFromString`, in order. -/
def parseCalls : List (Event φ ε) → List String
  | [] => []
  | Event.parse urls :: t => urls :: parseCalls t
  | _ :: t => parseCalls t

/-- The arguments of the calls to `Exclude`, in order. -/
def excludeCalls : List (Event φ ε) → List (φ × GoMap)
  | [] => []
  | Event.exclude f d :: t => (f, d) :: excludeCalls t
  | _ :: t => excludeCalls t

/-- The calls to `Fetch`, in order: the fetcher and the mapping returned. -/
def fetchCalls : List (Event φ ε) → List (φ × GoMap)
  | [] => []
  | Event.fetch f d _ :: t => (f, d) :: fetchCalls t
  | _ :: t => fetchCalls t

/-- The arguments of the calls to `UpdateData`, in order. -/
def updateCalls : List (Event φ ε) → List (ConfigMap × GoMap)
  | [] => []
  | Event.update cm d _ :: t => (cm, d) :: updateCalls t
  | _ :: t => updateCalls t

/-- The log entries, in order. -/
def logEntries : List (Event φ ε) → List (Entry ε)
  | [] => []
  | Event.log e :: t => e :: logEntries t
  | _ :: t => logEntries t

/-- The world the collaborators are left in once the snapshots of `cms` have
each been reconciled exactly once, in the order of the list, starting from `w`:
a left fold of the world component of `curlConfigMap`.  It is the reference
the loop of main.go:86-88 is compared with. -/
def worldAfter (c : Collaborators σ φ ε) (cms : List ConfigMap) (w : σ) : σ :=
  cms.foldl (fun v cm => (curlConfigMap c cm v).2) w

/-- Collaborators whose answers do not depend on the state of the world. -/
def Stateless (c : Collaborators σ φ ε) : Prop :=
  (∀ urls w w0, (c.PageFetcherFromString urls w).1 = (c.PageFetcherFromString urls w0).1) ∧
  (∀ f d w w0, (c.Exclude f d w).1 = (c.Exclude f d w0).1) ∧
  (∀ f w w0, (c.Fetch f w).1 = (c.Fetch f w0).1) ∧
  (∀ cm d w w0, (c.UpdateData cm d w).1 = (c.UpdateData cm d w0).1)

/-! ## The collaborators as the specification describes them

`PageFetcherFromString`, `Exclude`, `Fetch` and the `UpdateData` of the
ConfigMap manager are defined outside `main.go`.  Where a property depends on
what they do, they are modelled from sections 3, 4.2 and 4.3 of the
specification.  The annotation grammar, the outcome of retrieving each URL and
the outcome of each write-back stay parameters. -/

/-- Modelled from the spec: the Directive Set of section 3, a mapping from
output key to source URL with unique keys; it stands for the fetcher type,
whose declaration is not in `main.go`. -/
abbrev DirectiveSet := GoMap

/-- Modelled from the spec: the error taxonomy of section 7 (ParseError,
FetchError, UpdateError); the error values of the absent collaborators. -/
inductive SpecError where
  | parseError
  | fetchError
  | updateError
deriving DecidableEq, Repr

/-- Modelled from the spec: `Exclude` (section 4.2), absent from `main.go`:
"removing any key already present in `existing`. Pure set-difference". -/
def specExclude (ds : DirectiveSet) (existing : GoMap) : DirectiveSet :=
  ⟨ds.entries.filter (fun e => (existing.lookup e.1).isNone),
    List.NodupKeys.sublist (List.filter_sublist _) ds.nodupKeys⟩

/-- Modelled from the spec: the mapping returned by `Fetch` (section 4.2),
absent from `main.go`: "the returned mapping contains only the keys that
succeeded".  `get url` is the content retrieved from `url`, or `none` when the
retrieval fails. -/
def specFetchData (get : String → Option String) :
    List (Sigma (fun _ : String => String)) → GoMap
  | [] => ∅
  | ⟨key, url⟩ :: rest =>
    match get url with
    | some content => (specFetchData get rest).insert key content
    | none => specFetchData get rest

/-- Modelled from the spec: the error returned by `Fetch` (section 4.2): "If at
least one failure occurred, a non-nil error is returned alongside the partial
mapping". -/
def specFetchErr (get : String → Option String) (ds : DirectiveSet) : Option SpecError :=
  if ds.entries.all (fun e => (get e.2).isSome) then none else some SpecError.fetchError

/-- Modelled from the spec: the collaborators of sections 4.1 to 4.3.  The
world is the list of URLs requested so far; `Fetch` "attempts to retrieve
content for every remaining directive".  `parse` is the annotation grammar
(`none` is a ParseError), `upd` the outcome of a write-back. -/
def specCollaborators (parse : String → Option DirectiveSet)
    (get : String → Option String) (upd : ConfigMap → GoMap → Option SpecError) :
    Collaborators (List String) DirectiveSet SpecError where
  PageFetcherFromString := fun urls w =>
    match parse urls with
    | some ds => (Except.ok ds, w)
    | none => (Except.error SpecError.parseError, w)
  Exclude := fun ds existing w => (specExclude ds existing, w)
  Fetch := fun ds w =>
    ((specFetchData get ds.entries, specFetchErr get ds), w ++ ds.entries.map (fun e => e.2))
  UpdateData := fun cm data w => (upd cm data, w)

/-- Modelled from the spec: the effect of `UpdateData` on the stored data
(section 4.3, "merges `data` into the ConfigMap"; section 6, a merge-patch
"adding only the newly fetched keys"): the entries of `data` are set, every
other entry is kept. -/
def mergeData (prior data : GoMap) : GoMap := data ∪ prior

/-- Modelled from the spec: the snapshot the next watch event delivers after a
reconciliation with the given trace and no external change: every successful
`UpdateData` of the trace has been merged into the data. -/
def afterRound (cm : ConfigMap) : List (Event φ ε) → ConfigMap
  | [] => cm
  | Event.update _ data none :: t => afterRound { cm with Data := mergeData cm.Data data } t
  | _ :: t => afterRound cm t

/-! ## Concrete snapshots used as instances -/

/-- The Directive Set of scenarios 1 and 2 of section 8. -/
def directivesFoo : DirectiveSet := AList.singleton "foo" "http://x/1"

/-- The Directive Set of scenario 4 of section 8: keys A and B. -/
def directivesAB : DirectiveSet := (AList.singleton "B" "http://b").insert "A" "http://a"

/-- The mapping fetched in scenario 4 of section 8: the content of A alone. -/
def dataA : GoMap := AList.singleton "A" "content"

/-- The annotation grammar used in the instances: it knows the annotation
values of the scenarios of section 8 and the empty string. -/
def sampleParse (urls : String) : Option DirectiveSet :=
  if urls = "foo=http://x/1" then some directivesFoo
  else if urls = "A=http://a,B=http://b" then some directivesAB
  else if urls = "" then some ∅
  else none

/-- Retrieval outcomes used in the instances: `http://b` is unreachable. -/
def sampleGet (url : String) : Option String :=
  if url = "http://x/1" then some "hello"
  else if url = "http://a" then some "content"
  else none

/-- Collaborators over a world that counts the write-backs made so far: the
parser, `Exclude` and `Fetch` are those of the specification, and only the
first write-back succeeds. -/
def onceCollaborators : Collaborators Nat DirectiveSet SpecError where
  PageFetcherFromString := fun urls n =>
    match sampleParse urls with
    | some ds => (Except.ok ds, n)
    | none => (Except.error SpecError.parseError, n)
  Exclude := fun ds existing n => (specExclude ds existing, n)
  Fetch := fun ds n => ((specFetchData sampleGet ds.entries, specFetchErr sampleGet ds), n)
  UpdateData := fun _ _ n => (if n = 0 then none else some SpecError.updateError, n + 1)

/-- Write-back that succeeds. -/
def updOk : ConfigMap → GoMap → Option SpecError := fun _ _ => none

/-- Write-back that fails. -/
def updFail : ConfigMap → GoMap → Option SpecError := fun _ _ => some SpecError.updateError

/-- Scenario 1 of section 8: annotation `foo=http://x/1`, empty data. -/
def cmScenario1 : ConfigMap :=
  ⟨"cm", "default", AList.singleton curlAnnotation "foo=http://x/1", ∅⟩

/-- Scenario 2 of section 8: the same ConfigMap with data `foo: hello`. -/
def cmScenario2 : ConfigMap :=
  ⟨"cm", "default", AList.singleton curlAnnotation "foo=http://x/1",
    AList.singleton "foo" "hello"⟩

/-- Scenario 3 of section 8: a malformed annotation value. -/
def cmScenario3 : ConfigMap :=
  ⟨"cm", "default", AList.singleton curlAnnotation "foo", ∅⟩

/-- Scenario 4 of section 8: two directives, the second URL unreachable. -/
def cmScenario4 : ConfigMap :=
  ⟨"cm", "default", AList.singleton curlAnnotation "A=http://a,B=http://b", ∅⟩

/-- Scenario 4 with the key B already in the data. -/
def cmPartial : ConfigMap :=
  ⟨"cm", "default", AList.singleton curlAnnotation "A=http://a,B=http://b",
    AList.singleton "B" "old"⟩

/-- A ConfigMap without annotations. -/
def cmPlain : ConfigMap := ⟨"cm", "default", ∅, AList.singleton "k" "v"⟩

/-- A ConfigMap whose only annotation key differs from `curlAnnotation` in
letter case. -/
def cmUpper : ConfigMap :=
  ⟨"cm", "default", AList.singleton "X-K8S.IO/CURL-ME-THAT" "foo=http://x/1", ∅⟩

/-- A ConfigMap whose annotation value is the empty string. -/
def cmEmptyValue : ConfigMap := ⟨"cm", "default", AList.singleton curlAnnotation "", ∅⟩

/-! ## Reading the trace of one reconciliation -/

section TraceLemmas

variable (cm : ConfigMap)

@[simp]
theorem updateCalls_append (s t : List (Event φ ε)) :
    updateCalls (s ++ t) = updateCalls s ++ updateCalls t := by
  induction s with
  | nil => rfl
  | cons e s ih => cases e <;> simp [updateCalls, ih]

@[simp]
theorem fetchCalls_append (s t : List (Event φ ε)) :
    fetchCalls (s ++ t) = fetchCalls s ++ fetchCalls t := by
  induction s with
  | nil => rfl
  | cons e s ih => cases e <;> simp [fetchCalls, ih]

@[simp]
theorem logEntries_append (s t : List (Event φ ε)) :
    logEntries (s ++ t) = logEntries s ++ logEntries t := by
  induction s with
  | nil => rfl
  | cons e s ih => cases e <;> simp [logEntries, ih]

@[simp]
theorem updateCalls_fetchLog (err : Option ε) :
    updateCalls (fetchLog cm err : List (Event φ ε)) = [] := by
  cases err <;> rfl

@[simp]
theorem fetchCalls_fetchLog (err : Option ε) :
    fetchCalls (fetchLog cm err : List (Event φ ε)) = [] := by
  cases err <;> rfl

@[simp]
theorem updateCalls_updateLog (data : GoMap) (err : Option ε) (t : List (Event φ ε)) :
    updateCalls (updateLog cm data err :: t) = updateCalls t := by
  cases err <;> rfl

@[simp]
theorem fetchCalls_updateLog (data : GoMap) (err : Option ε) (t : List (Event φ ε)) :
    fetchCalls (updateLog cm data err :: t) = fetchCalls t := by
  cases err <;> rfl

@[simp]
theorem parseCalls_append (s t : List (Event φ ε)) :
    parseCalls (s ++ t) = parseCalls s ++ parseCalls t := by
  induction s with
  | nil => rfl
  | cons e s ih => cases e <;> simp [parseCalls, ih]

@[simp]
theorem parseCalls_fetchLog (err : Option ε) :
    parseCalls (fetchLog cm err : List (Event φ ε)) = [] := by
  cases err <;> rfl

@[simp]
theorem parseCalls_updateLog (data : GoMap) (err : Option ε) (t : List (Event φ ε)) :
    parseCalls (updateLog cm data err :: t) = parseCalls t := by
  cases err <;> rfl

theorem update_not_mem_fetchLog (cm1 : ConfigMap) (d : GoMap) (e err : Option ε) :
    Event.update cm1 d e ∉ (fetchLog cm err : List (Event φ ε)) := by
  cases err <;> simp [fetchLog, logEvent]

theorem update_ne_updateLog (cm1 : ConfigMap) (d data : GoMap) (e err : Option ε) :
    (Event.update cm1 d e : Event φ ε) ≠ updateLog cm data err := by
  cases err <;> simp [updateLog, logEvent]

theorem mem_updateCalls {t : List (Event φ ε)} {p : ConfigMap × GoMap} :
    p ∈ updateCalls t ↔ ∃ e, Event.update p.1 p.2 e ∈ t := by
  induction t with
  | nil => simp [updateCalls]
  | cons ev t ih =>
    cases ev <;> simp [updateCalls, ih]
    rename_i c d e
    constructor
    · rintro (h | ⟨e1, h⟩)
      · subst h
        exact ⟨e, Or.inl ⟨rfl, rfl, rfl⟩⟩
      · exact ⟨e1, Or.inr h⟩
    · rintro ⟨e1, (⟨h1, h2, _⟩ | h)⟩
      · left
        cases p
        simp_all
      · exact Or.inr ⟨e1, h⟩

end TraceLemmas

/-- The trace and world of a reconciliation whose annotation is present, whose
annotation value parses and whose fetch returns an empty mapping. -/
theorem curlConfigMap_empty (c : Collaborators σ φ ε) (cm : ConfigMap) (w w1 w2 w3 : σ)
    (urls : String) (f f1 : φ) (data : GoMap) (err : Option ε)
    (hann : cm.Annotations.lookup curlAnnotation = some urls)
    (hparse : c.PageFetcherFromString urls w = (Except.ok f, w1))
    (hexcl : c.Exclude f cm.Data w1 = (f1, w2))
    (hfetch : c.Fetch f1 w2 = ((data, err), w3))
    (hempty : data.len = 0) :
    curlConfigMap c cm w =
      ([Event.parse urls, Event.exclude f cm.Data, Event.fetch f1 data err]
        ++ fetchLog cm err
        ++ [logEvent cm Level.info "Leaving configmap already processed" none none], w3) := by
  simp [curlConfigMap, hann, hparse, hexcl, hfetch, hempty]

/-- The trace and world of a reconciliation that reaches `UpdateData`. -/
theorem curlConfigMap_update (c : Collaborators σ φ ε) (cm : ConfigMap) (w w1 w2 w3 : σ)
    (urls : String) (f f1 : φ) (data : GoMap) (err : Option ε)
    (hann : cm.Annotations.lookup curlAnnotation = some urls)
    (hparse : c.PageFetcherFromString urls w = (Except.ok f, w1))
    (hexcl : c.Exclude f cm.Data w1 = (f1, w2))
    (hfetch : c.Fetch f1 w2 = ((data, err), w3))
    (hne : data.len ≠ 0) :
    curlConfigMap c cm w =
      ([Event.parse urls, Event.exclude f cm.Data, Event.fetch f1 data err]
        ++ fetchLog cm err
        ++ [Event.update cm data (c.UpdateData cm data w3).1,
            updateLog cm data (c.UpdateData cm data w3).1],
        (c.UpdateData cm data w3).2) := by
  simp only [curlConfigMap, hann, hparse, hexcl, hfetch, hne, if_false]
  rcases hu : c.UpdateData cm data w3 with ⟨_ | e, w4⟩ <;> simp [updateLog]

/-- The shapes a trace of `curlConfigMap` can take, one per path through the
function. -/
theorem curlConfigMap_cases (c : Collaborators σ φ ε) (cm : ConfigMap) (w : σ) :
    (cm.Annotations.lookup curlAnnotation = none ∧
      curlConfigMap c cm w =
        ([logEvent cm Level.info "Skipping configmap without annotation" none none], w)) ∨
    (∃ urls err w1, cm.Annotations.lookup curlAnnotation = some urls ∧
      c.PageFetcherFromString urls w = (Except.error err, w1) ∧
      curlConfigMap c cm w =
        ([Event.parse urls, logEvent cm Level.error "Cannot parse URLs" (some err) none],
          w1)) ∨
    (∃ urls f w1 f1 w2 data err w3, cm.Annotations.lookup curlAnnotation = some urls ∧
      c.PageFetcherFromString urls w = (Except.ok f, w1) ∧
      c.Exclude f cm.Data w1 = (f1, w2) ∧
      c.Fetch f1 w2 = ((data, err), w3) ∧
      ((data.len = 0 ∧ curlConfigMap c cm w =
          ([Event.parse urls, Event.exclude f cm.Data, Event.fetch f1 data err]
            ++ fetchLog cm err
            ++ [logEvent cm Level.info "Leaving configmap already processed" none none],
            w3)) ∨
       (data.len ≠ 0 ∧ curlConfigMap c cm w =
          ([Event.parse urls, Event.exclude f cm.Data, Event.fetch f1 data err]
            ++ fetchLog cm err
            ++ [Event.update cm data (c.UpdateData cm data w3).1,
                updateLog cm data (c.UpdateData cm data w3).1],
            (c.UpdateData cm data w3).2)))) := by
  rcases hann : cm.Annotations.lookup curlAnnotation with _ | urls
  · left
    exact ⟨rfl, by simp [curlConfigMap, hann]⟩
  · right
    rcases hparse : c.PageFetcherFromString urls w with ⟨_ | f, w1⟩
    · left
      rename_i err
      exact ⟨urls, err, w1, rfl, hparse, by simp [curlConfigMap, hann, hparse]⟩
    · right
      rcases hexcl : c.Exclude f cm.Data w1 with ⟨f1, w2⟩
      rcases hfetch : c.Fetch f1 w2 with ⟨⟨data, err⟩, w3⟩
      refine ⟨urls, f, w1, f1, w2, data, err, w3, rfl, hparse, hexcl, hfetch, ?_⟩
      by_cases hlen : data.len = 0
      · exact Or.inl ⟨hlen, curlConfigMap_empty c cm w w1 w2 w3 urls f f1 data err
          hann hparse hexcl hfetch hlen⟩
      · exact Or.inr ⟨hlen, curlConfigMap_update c cm w w1 w2 w3 urls f f1 data err
          hann hparse hexcl hfetch hlen⟩

/-! ## The driver loop -/

theorem mainLoop_cons (c : Collaborators σ φ ε) (cm : ConfigMap) (rest : List ConfigMap)
    (w : σ) :
    mainLoop c (cm :: rest) w =
      ((curlConfigMap c cm w).1 :: (mainLoop c rest (curlConfigMap c cm w).2).1,
        (mainLoop c rest (curlConfigMap c cm w).2).2) := rfl

theorem mainLoop_length (c : Collaborators σ φ ε) (cms : List ConfigMap) (w : σ) :
    (mainLoop c cms w).1.length = cms.length := by
  induction cms generalizing w with
  | nil => rfl
  | cons cm rest ih => simp [mainLoop_cons, ih]

theorem worldAfter_cons (c : Collaborators σ φ ε) (cm : ConfigMap) (rest : List ConfigMap)
    (w : σ) :
    worldAfter c (cm :: rest) w = worldAfter c rest (curlConfigMap c cm w).2 := rfl

theorem mainLoop_world (c : Collaborators σ φ ε) (cms : List ConfigMap) (w : σ) :
    (mainLoop c cms w).2 = worldAfter c cms w := by
  induction cms generalizing w with
  | nil => rfl
  | cons cm rest ih => rw [mainLoop_cons, worldAfter_cons, ← ih]

theorem mainLoop_getElem? (c : Collaborators σ φ ε) (cms : List ConfigMap) (w : σ) (i : Nat) :
    (mainLoop c cms w).1[i]? =
      (cms[i]?).map (fun cm => (curlConfigMap c cm (worldAfter c (cms.take i) w)).1) := by
  induction cms generalizing w i with
  | nil => simp [mainLoop]
  | cons cm rest ih =>
    cases i with
    | zero => simp [mainLoop_cons, worldAfter]
    | succ i => simp [mainLoop_cons, worldAfter_cons, ih]

theorem curlConfigMap_stateless (c : Collaborators σ φ ε) (hc : Stateless c)
    (cm : ConfigMap) (w w0 : σ) :
    (curlConfigMap c cm w).1 = (curlConfigMap c cm w0).1 := by
  obtain ⟨hp, he, hf, hu⟩ := hc
  rcases hann : cm.Annotations.lookup curlAnnotation with _ | urls
  · simp [curlConfigMap, hann]
  · have hp1 := hp urls w w0
    rcases hparse : c.PageFetcherFromString urls w with ⟨r, w1⟩
    rcases hparse0 : c.PageFetcherFromString urls w0 with ⟨r0, v1⟩
    rw [hparse, hparse0] at hp1
    simp only at hp1
    subst hp1
    cases r with
    | error err => simp [curlConfigMap, hann, hparse, hparse0]
    | ok f =>
      have he1 := he f cm.Data w1 v1
      rcases hexcl : c.Exclude f cm.Data w1 with ⟨f1, w2⟩
      rcases hexcl0 : c.Exclude f cm.Data v1 with ⟨g1, v2⟩
      rw [hexcl, hexcl0] at he1
      simp only at he1
      subst he1
      have hf1 := hf f1 w2 v2
      rcases hfetch : c.Fetch f1 w2 with ⟨⟨data, err⟩, w3⟩
      rcases hfetch0 : c.Fetch f1 v2 with ⟨⟨data0, err0⟩, v3⟩
      rw [hfetch, hfetch0] at hf1
      simp only [Prod.mk.injEq] at hf1
      obtain ⟨hd, herr⟩ := hf1
      subst hd
      subst herr
      by_cases hlen : data.len = 0
      · rw [curlConfigMap_empty c cm w w1 w2 w3 urls f f1 data err hann hparse hexcl hfetch hlen,
          curlConfigMap_empty c cm w0 v1 v2 v3 urls f f1 data err hann hparse0 hexcl0 hfetch0
            hlen]
      · rw [curlConfigMap_update c cm w w1 w2 w3 urls f f1 data err hann hparse hexcl hfetch
            hlen,
          curlConfigMap_update c cm w0 v1 v2 v3 urls f f1 data err hann hparse0 hexcl0 hfetch0
            hlen]
        simp only [hu cm data w3 v3]

theorem mainLoop_stateless (c : Collaborators σ φ ε) (hc : Stateless c)
    (cms : List ConfigMap) (w w0 : σ) :
    (mainLoop c cms w).1 = cms.map (fun cm => (curlConfigMap c cm w0).1) := by
  induction cms generalizing w with
  | nil => rfl
  | cons cm rest ih =>
    simp only [mainLoop_cons, List.map_cons, ih]
    rw [curlConfigMap_stateless c hc cm w w0]

theorem specCollaborators_stateless (parse : String → Option DirectiveSet)
    (get : String → Option String) (upd : ConfigMap → GoMap → Option SpecError) :
    Stateless (specCollaborators parse get upd) := by
  refine ⟨?_, ?_, ?_, ?_⟩
  · intro urls w w0
    simp only [specCollaborators]
    cases parse urls <;> rfl
  · intro f d w w0
    rfl
  · intro f w w0
    rfl
  · intro cm d w w0
    rfl

/-! ## Properties of one reconciliation, for arbitrary collaborators -/

/-- C1 (best-effort fetch): when the annotation is present, its value parses
and `Fetch`, called on the fetcher left by `Exclude`, returns a non-empty
mapping together with a non-nil error, `curlConfigMap` calls `UpdateData`
exactly once, with the received snapshot and exactly the mapping returned. -/
theorem best_effort_fetch (c : Collaborators σ φ ε) (cm : ConfigMap) (w w1 w2 w3 : σ)
    (urls : String) (f f1 : φ) (data : GoMap) (e : ε)
    (hann : cm.Annotations.lookup curlAnnotation = some urls)
    (hparse : c.PageFetcherFromString urls w = (Except.ok f, w1))
    (hexcl : c.Exclude f cm.Data w1 = (f1, w2))
    (hfetch : c.Fetch f1 w2 = ((data, some e), w3))
    (hne : data.len ≠ 0) :
    updateCalls (curlConfigMap c cm w).1 = [(cm, data)] := by
  rw [curlConfigMap_update c cm w w1 w2 w3 urls f f1 data (some e) hann hparse hexcl hfetch hne]
  simp [updateCalls]

/-- Instance of C1: directives A and B, B unreachable; `UpdateData` receives
the snapshot and the mapping with the content of A alone. -/
theorem best_effort_fetch_witness :
    updateCalls (curlConfigMap (specCollaborators sampleParse sampleGet updOk)
      cmScenario4 []).1 = [(cmScenario4, AList.singleton "A" "content")] :=
  best_effort_fetch (specCollaborators sampleParse sampleGet updOk) cmScenario4
    [] [] [] ["http://a", "http://b"] "A=http://a,B=http://b"
    directivesAB directivesAB
    (AList.singleton "A" "content") SpecError.fetchError rfl rfl rfl rfl (by decide)

/-- C2 (empty-result guard): whatever the collaborators do, when the mapping
returned by `Fetch` is empty, with or without an error, `curlConfigMap` does
not call `UpdateData`. -/
theorem empty_result_guard (c : Collaborators σ φ ε) (cm : ConfigMap) (w w1 w2 w3 : σ)
    (urls : String) (f f1 : φ) (data : GoMap) (err : Option ε)
    (hann : cm.Annotations.lookup curlAnnotation = some urls)
    (hparse : c.PageFetcherFromString urls w = (Except.ok f, w1))
    (hexcl : c.Exclude f cm.Data w1 = (f1, w2))
    (hfetch : c.Fetch f1 w2 = ((data, err), w3))
    (hempty : data.len = 0) :
    updateCalls (curlConfigMap c cm w).1 = [] := by
  rw [curlConfigMap_empty c cm w w1 w2 w3 urls f f1 data err hann hparse hexcl hfetch hempty]
  simp [updateCalls, logEvent]

/-- Instance of C2: both directives fail to fetch, `Fetch` returns the empty
mapping with an error, and `UpdateData` is not called. -/
theorem empty_result_guard_witness :
    updateCalls (curlConfigMap (specCollaborators sampleParse (fun _ => none) updOk)
      cmScenario4 []).1 = [] :=
  empty_result_guard (specCollaborators sampleParse (fun _ => none) updOk) cmScenario4
    [] [] [] ["http://a", "http://b"] "A=http://a,B=http://b"
    directivesAB directivesAB
    ∅ (some SpecError.fetchError) rfl rfl rfl rfl rfl

/-- C3 (no-annotation skip): for a snapshot whose annotations lack the key
`curlAnnotation`, the trace is the single "skipping" log entry, the world is
untouched, and there is no call to the parser, `Exclude`, `Fetch` or
`UpdateData`. -/
theorem no_annotation_skip (c : Collaborators σ φ ε) (cm : ConfigMap) (w : σ)
    (hann : cm.Annotations.lookup curlAnnotation = none) :
    curlConfigMap c cm w =
        ([logEvent cm Level.info "Skipping configmap without annotation" none none], w) ∧
      parseCalls (curlConfigMap c cm w).1 = [] ∧
      excludeCalls (curlConfigMap c cm w).1 = [] ∧
      fetchCalls (curlConfigMap c cm w).1 = [] ∧
      updateCalls (curlConfigMap c cm w).1 = [] := by
  have h : curlConfigMap c cm w =
      ([logEvent cm Level.info "Skipping configmap without annotation" none none], w) := by
    simp [curlConfigMap, hann]
  rw [h]
  simp [logEvent, parseCalls, excludeCalls, fetchCalls, updateCalls]

/-- Instance of C3: a ConfigMap with an empty annotation mapping. -/
theorem no_annotation_skip_witness :
    curlConfigMap (specCollaborators sampleParse sampleGet updOk) cmPlain [] =
        ([logEvent cmPlain Level.info "Skipping configmap without annotation" none none], []) ∧
      parseCalls (curlConfigMap (specCollaborators sampleParse sampleGet updOk) cmPlain []).1
        = [] ∧
      excludeCalls (curlConfigMap (specCollaborators sampleParse sampleGet updOk) cmPlain []).1
        = [] ∧
      fetchCalls (curlConfigMap (specCollaborators sampleParse sampleGet updOk) cmPlain []).1
        = [] ∧
      updateCalls (curlConfigMap (specCollaborators sampleParse sampleGet updOk) cmPlain []).1
        = [] :=
  no_annotation_skip (specCollaborators sampleParse sampleGet updOk) cmPlain [] rfl

/-- C4 (parse failure is terminal): when the annotation is present and the
parser returns an error for its value, `curlConfigMap` calls neither `Exclude`,
`Fetch` nor `UpdateData` and emits exactly one log entry, at error level. -/
theorem parse_failure_terminal (c : Collaborators σ φ ε) (cm : ConfigMap) (w w1 : σ)
    (urls : String) (err : ε)
    (hann : cm.Annotations.lookup curlAnnotation = some urls)
    (hparse : c.PageFetcherFromString urls w = (Except.error err, w1)) :
    excludeCalls (curlConfigMap c cm w).1 = [] ∧
      fetchCalls (curlConfigMap c cm w).1 = [] ∧
      updateCalls (curlConfigMap c cm w).1 = [] ∧
      logEntries (curlConfigMap c cm w).1 =
        [⟨Level.error, cm.Name, cm.Namespace, "Cannot parse URLs", some err, none⟩] := by
  have h : curlConfigMap c cm w =
      ([Event.parse urls, logEvent cm Level.error "Cannot parse URLs" (some err) none],
        w1) := by
    simp [curlConfigMap, hann, hparse]
  rw [h]
  simp [logEvent, excludeCalls, fetchCalls, updateCalls, logEntries]

/-- Instance of C4: scenario 3, the annotation value `foo`. -/
theorem parse_failure_terminal_witness :
    excludeCalls (curlConfigMap (specCollaborators sampleParse sampleGet updOk)
        cmScenario3 []).1 = [] ∧
      fetchCalls (curlConfigMap (specCollaborators sampleParse sampleGet updOk)
        cmScenario3 []).1 = [] ∧
      updateCalls (curlConfigMap (specCollaborators sampleParse sampleGet updOk)
        cmScenario3 []).1 = [] ∧
      logEntries (curlConfigMap (specCollaborators sampleParse sampleGet updOk)
        cmScenario3 []).1 =
        [⟨Level.error, "cm", "default", "Cannot parse URLs", some SpecError.parseError,
          none⟩] :=
  parse_failure_terminal (specCollaborators sampleParse sampleGet updOk) cmScenario3 [] []
    "foo" SpecError.parseError rfl rfl

/-- C7 (zero-or-one mutation, no retry): whatever the collaborators do, one
run of `curlConfigMap` calls `UpdateData` at most once; when that call returns
an error it is the only call, made on the received snapshot, and the run ends
with the error entry "Cannot add data" as its last event. -/
theorem update_at_most_once (c : Collaborators σ φ ε) (cm : ConfigMap) (w : σ) :
    (updateCalls (curlConfigMap c cm w).1).length ≤ 1 ∧
      ∀ (cm1 : ConfigMap) (d : GoMap) (e : ε),
        Event.update cm1 d (some e) ∈ (curlConfigMap c cm w).1 →
          cm1 = cm ∧ updateCalls (curlConfigMap c cm w).1 = [(cm, d)] ∧
          (curlConfigMap c cm w).1.getLast? =
            some (logEvent cm Level.error "Cannot add data" (some e) none) := by
  rcases curlConfigMap_cases c cm w with ⟨_, h⟩ | ⟨urls, err, w1, _, _, h⟩ |
    ⟨urls, f, w1, f1, w2, data, err, w3, _, _, _, _, ⟨_, h⟩ | ⟨_, h⟩⟩
  · rw [h]
    simp [updateCalls, logEvent]
  · rw [h]
    simp [updateCalls, logEvent]
  · rw [h]
    simp [updateCalls, logEvent, update_not_mem_fetchLog]
  · rw [h]
    refine ⟨by simp [updateCalls], ?_⟩
    intro cm1 d e hmem
    simp only [List.mem_append, List.mem_cons, List.mem_singleton, List.not_mem_nil,
      update_not_mem_fetchLog, update_ne_updateLog, or_false, false_or, reduceCtorEq,
      Event.update.injEq] at hmem
    obtain ⟨h1, h2, h3⟩ := hmem
    subst h1
    subst h2
    rw [← h3]
    refine ⟨rfl, by simp [updateCalls, updateLog], ?_⟩
    rw [show ([Event.parse urls, Event.exclude f cm1.Data, Event.fetch f1 d err]
          ++ fetchLog cm1 err
          ++ [Event.update cm1 d (some e), updateLog cm1 d (some e)] : List (Event φ ε)) =
        ([Event.parse urls, Event.exclude f cm1.Data, Event.fetch f1 d err]
          ++ fetchLog cm1 err ++ [Event.update cm1 d (some e)])
          ++ [updateLog cm1 d (some e)] by simp]
    rw [List.getLast?_concat]
    rfl

/-- Instance of C7: scenario 1 with a write-back that fails. -/
theorem update_at_most_once_witness :
    cmScenario1 = cmScenario1 ∧
      updateCalls (curlConfigMap (specCollaborators sampleParse sampleGet updFail)
        cmScenario1 []).1 = [(cmScenario1, AList.singleton "foo" "hello")] ∧
      (curlConfigMap (specCollaborators sampleParse sampleGet updFail)
        cmScenario1 []).1.getLast? =
        some (logEvent cmScenario1 Level.error "Cannot add data"
          (some SpecError.updateError) none) :=
  (update_at_most_once (specCollaborators sampleParse sampleGet updFail) cmScenario1 []).2
    cmScenario1 (AList.singleton "foo" "hello") SpecError.updateError
    (List.Mem.tail _ (List.Mem.tail _ (List.Mem.tail _ (List.Mem.head _))))

/-- C10 (annotation detection by exact key presence): the parser is called
exactly when the annotation mapping has the key `curlAnnotation`, once, with
the value stored under that key unchanged; a key that differs in letter case
counts as absent, and an empty value still reaches the parser. -/
theorem annotation_detection (c : Collaborators σ φ ε) (cm : ConfigMap) (w : σ) :
    parseCalls (curlConfigMap c cm w).1 = (cm.Annotations.lookup curlAnnotation).toList ∧
      (parseCalls (curlConfigMap c cm w).1 ≠ [] ↔ curlAnnotation ∈ cm.Annotations) ∧
      parseCalls (curlConfigMap c cmUpper w).1 = [] ∧
      parseCalls (curlConfigMap c cmEmptyValue w).1 = [""] := by
  have key : ∀ cm0 : ConfigMap,
      parseCalls (curlConfigMap c cm0 w).1 =
        (cm0.Annotations.lookup curlAnnotation).toList := by
    intro cm0
    rcases curlConfigMap_cases c cm0 w with ⟨ha, h⟩ | ⟨urls, err, w1, ha, _, h⟩ |
      ⟨urls, f, w1, f1, w2, data, err, w3, ha, _, _, _, ⟨_, h⟩ | ⟨_, h⟩⟩ <;>
    · rw [h, ha]
      simp [parseCalls, logEvent]
  refine ⟨key cm, ?_, ?_, ?_⟩
  · rw [key cm, ← AList.lookup_isSome]
    cases cm.Annotations.lookup curlAnnotation <;> simp
  · rw [key cmUpper]
    rfl
  · rw [key cmEmptyValue]
    rfl

/-! ## The driver loop -/

/-- C9 (loop isolation and order): over a finite sequence of snapshots the
loop makes as many runs of `curlConfigMap` as there are snapshots; its run
number `i` is `curlConfigMap` on the snapshot number `i`, started in the world
left by reconciling the snapshots before it exactly once each, in delivery
order (`worldAfter`, a fold that does not mention the loop); the loop ends in
the world left by reconciling the whole sequence that way, so no snapshot is
skipped, repeated or reordered and nothing but the collaborators' own world
passes from one run to the next; hence for collaborators whose answers do not
depend on the world, every run is the one the snapshot would get on its own. -/
theorem loop_isolation_order (c : Collaborators σ φ ε) (cms : List ConfigMap) (w : σ) :
    (mainLoop c cms w).1.length = cms.length ∧
      (∀ i : Nat, (mainLoop c cms w).1[i]? =
        (cms[i]?).map (fun cm => (curlConfigMap c cm (worldAfter c (cms.take i) w)).1)) ∧
      (mainLoop c cms w).2 = worldAfter c cms w ∧
      (Stateless c → ∀ w0 : σ,
        (mainLoop c cms w).1 = cms.map (fun cm => (curlConfigMap c cm w0).1)) :=
  ⟨mainLoop_length c cms w, mainLoop_getElem? c cms w, mainLoop_world c cms w,
    fun hc w0 => mainLoop_stateless c hc cms w w0⟩

/-- Instance of C9.  With answers that ignore the world: a parse failure, then
a fetch that fails in part followed by a write-back that fails, then scenario
1; each run is the one the snapshot gets on its own.  With a write-back that
succeeds only the first time, scenario 1 delivered twice: two runs, the second
started in the world with one write-back made, where its write-back fails, and
the loop ends in the world with two write-backs made. -/
theorem loop_isolation_order_witness :
    (mainLoop (specCollaborators sampleParse sampleGet updFail)
        [cmScenario3, cmScenario4, cmScenario1] []).1 =
      [(curlConfigMap (specCollaborators sampleParse sampleGet updFail) cmScenario3 []).1,
        (curlConfigMap (specCollaborators sampleParse sampleGet updFail) cmScenario4 []).1,
        (curlConfigMap (specCollaborators sampleParse sampleGet updFail) cmScenario1 []).1] ∧
      (mainLoop onceCollaborators [cmScenario1, cmScenario1] 0).1.length = 2 ∧
      (mainLoop onceCollaborators [cmScenario1, cmScenario1] 0).1[0]? =
        some (curlConfigMap onceCollaborators cmScenario1 0).1 ∧
      (mainLoop onceCollaborators [cmScenario1, cmScenario1] 0).1[1]? =
        some (curlConfigMap onceCollaborators cmScenario1 1).1 ∧
      (curlConfigMap onceCollaborators cmScenario1 0).1.getLast? =
        some (logEvent cmScenario1 Level.info "Curled data into ConfigMap" none
          (some (AList.singleton "foo" "hello"))) ∧
      (curlConfigMap onceCollaborators cmScenario1 1).1.getLast? =
        some (logEvent cmScenario1 Level.error "Cannot add data"
          (some SpecError.updateError) none) ∧
      (mainLoop onceCollaborators [cmScenario1, cmScenario1] 0).2 = 2 :=
  ⟨(loop_isolation_order (specCollaborators sampleParse sampleGet updFail)
      [cmScenario3, cmScenario4, cmScenario1] []).2.2.2
      (specCollaborators_stateless sampleParse sampleGet updFail) [],
    (loop_isolation_order onceCollaborators [cmScenario1, cmScenario1] 0).1,
    ((loop_isolation_order onceCollaborators [cmScenario1, cmScenario1] 0).2.1 0).trans rfl,
    ((loop_isolation_order onceCollaborators [cmScenario1, cmScenario1] 0).2.1 1).trans rfl,
    rfl, rfl,
    (loop_isolation_order onceCollaborators [cmScenario1, cmScenario1] 0).2.2.1.trans rfl⟩

/-! ## The collaborators of the specification -/

theorem mem_specExclude_entries (ds : DirectiveSet) (existing : GoMap)
    (e : Sigma (fun _ : String => String)) :
    e ∈ (specExclude ds existing).entries ↔ e ∈ ds.entries ∧ e.1 ∉ existing := by
  simp [specExclude, List.mem_filter, AList.lookup_eq_none]

theorem mem_specExclude (ds : DirectiveSet) (existing : GoMap) (k : String) :
    k ∈ specExclude ds existing ↔ k ∈ ds ∧ k ∉ existing := by
  constructor
  · intro h
    have h1 : k ∈ (specExclude ds existing).entries.map Sigma.fst := h
    obtain ⟨e, he, rfl⟩ := List.mem_map.mp h1
    rw [mem_specExclude_entries] at he
    exact ⟨List.mem_map_of_mem Sigma.fst he.1, he.2⟩
  · rintro ⟨h, hk⟩
    have h1 : k ∈ ds.entries.map Sigma.fst := h
    obtain ⟨e, he, rfl⟩ := List.mem_map.mp h1
    exact List.mem_map_of_mem Sigma.fst
      ((mem_specExclude_entries ds existing e).mpr ⟨he, hk⟩)

theorem mem_specFetchData (get : String → Option String)
    (l : List (Sigma (fun _ : String => String))) (k : String) :
    k ∈ specFetchData get l ↔ ∃ e ∈ l, e.1 = k ∧ (get e.2).isSome := by
  induction l with
  | nil => simp [specFetchData]
  | cons e l ih =>
    obtain ⟨key, url⟩ := e
    rcases hg : get url with _ | content
    · simp [specFetchData, hg, ih]
    · simp only [specFetchData, hg, AList.mem_insert, ih]
      constructor
      · rintro (rfl | ⟨e, he, h1, h2⟩)
        · exact ⟨⟨k, url⟩, List.mem_cons_self _ _, rfl, by simp [hg]⟩
        · exact ⟨e, List.mem_cons_of_mem _ he, h1, h2⟩
      · rintro ⟨e, he, h1, h2⟩
        rcases List.mem_cons.mp he with rfl | he
        · exact Or.inl h1.symm
        · exact Or.inr ⟨e, he, h1, h2⟩

theorem specFetchData_eq_empty (get : String → Option String)
    (l : List (Sigma (fun _ : String => String)))
    (h : ∀ e ∈ l, get e.2 = none) : specFetchData get l = ∅ := by
  induction l with
  | nil => rfl
  | cons e l ih =>
    obtain ⟨key, url⟩ := e
    have hg : get url = none := h ⟨key, url⟩ (List.mem_cons_self _ _)
    simp only [specFetchData, hg]
    exact ih (fun e he => h e (List.mem_cons_of_mem _ he))

theorem mem_keys_of_mem_specFetchData (get : String → Option String) (ds : DirectiveSet)
    (k : String) (h : k ∈ specFetchData get ds.entries) : k ∈ ds.keys := by
  obtain ⟨e, he, rfl, _⟩ := (mem_specFetchData get ds.entries k).mp h
  exact List.mem_map_of_mem _ he

/-! ## Merge-only -/

/-- C5 (merge-only): when `Exclude` is set-difference on the directive keys
and `Fetch` returns only keys of the directives it is called on, every call of
`UpdateData` is made on the received snapshot with a mapping whose keys are
disjoint from the keys of the snapshot's data; merging it into the prior data
keeps every prior entry with its value, adds every fetched entry, and adds
nothing else. -/
theorem merge_only (c : Collaborators σ φ ε) (keys : φ → List String)
    (hExclude : ∀ f d w k, k ∈ keys (c.Exclude f d w).1 ↔ (k ∈ keys f ∧ k ∉ d))
    (hFetch : ∀ f w k, k ∈ (c.Fetch f w).1.1 → k ∈ keys f)
    (cm : ConfigMap) (w : σ) (p : ConfigMap × GoMap)
    (hp : p ∈ updateCalls (curlConfigMap c cm w).1) :
    p.1 = cm ∧
      (∀ k, k ∈ p.2 → k ∉ cm.Data) ∧
      (∀ k v, cm.Data.lookup k = some v → (mergeData cm.Data p.2).lookup k = some v) ∧
      (∀ k v, p.2.lookup k = some v → (mergeData cm.Data p.2).lookup k = some v) ∧
      (∀ k, k ∈ mergeData cm.Data p.2 ↔ k ∈ cm.Data ∨ k ∈ p.2) := by
  have hdisj : p.1 = cm ∧ ∀ k, k ∈ p.2 → k ∉ cm.Data := by
    rcases curlConfigMap_cases c cm w with ⟨_, h⟩ | ⟨urls, err, w1, _, _, h⟩ |
      ⟨urls, f, w1, f1, w2, data, err, w3, _, _, hexcl, hfetch, ⟨_, h⟩ | ⟨_, h⟩⟩
    · rw [h] at hp
      simp [updateCalls, logEvent] at hp
    · rw [h] at hp
      simp [updateCalls, logEvent] at hp
    · rw [h] at hp
      simp [updateCalls, logEvent] at hp
    · rw [h] at hp
      simp [updateCalls] at hp
      subst hp
      refine ⟨rfl, ?_⟩
      intro k hk
      have h1 : k ∈ keys f1 := by
        have := hFetch f1 w2 k
        rw [hfetch] at this
        exact this hk
      have h2 := (hExclude f cm.Data w1 k).mp (by rw [hexcl]; exact h1)
      exact h2.2
  refine ⟨hdisj.1, hdisj.2, ?_, ?_, ?_⟩
  · intro k v hv
    have hk : k ∈ cm.Data := AList.lookup_isSome.mp (by simp [hv])
    have hnot : k ∉ p.2 := fun h => hdisj.2 k h hk
    simp only [mergeData]
    rw [AList.lookup_union_right hnot, hv]
  · intro k v hv
    have hk : k ∈ p.2 := AList.lookup_isSome.mp (by simp [hv])
    simp only [mergeData]
    rw [AList.lookup_union_left hk, hv]
  · intro k
    simp only [mergeData, AList.mem_union]
    exact Or.comm

/-- Instance of C5: directives A and B with B already in the data; the
write-back carries A alone and the merge keeps B with its old value. -/
theorem merge_only_witness :
    (cmPartial, dataA) ∈
        updateCalls (curlConfigMap (specCollaborators sampleParse sampleGet updOk)
          cmPartial []).1 ∧
      ((cmPartial, dataA).1 = cmPartial ∧
        (∀ k, k ∈ (cmPartial, dataA).2 → k ∉ cmPartial.Data) ∧
        (∀ k v, cmPartial.Data.lookup k = some v →
          (mergeData cmPartial.Data (cmPartial, dataA).2).lookup k
            = some v) ∧
        (∀ k v, (cmPartial, dataA).2.lookup k = some v →
          (mergeData cmPartial.Data (cmPartial, dataA).2).lookup k
            = some v) ∧
        (∀ k, k ∈ mergeData cmPartial.Data (cmPartial, dataA).2 ↔
          k ∈ cmPartial.Data ∨ k ∈ (cmPartial, dataA).2)) :=
  ⟨List.Mem.head _,
    merge_only (specCollaborators sampleParse sampleGet updOk) AList.keys
      (fun f d _ k => mem_specExclude f d k)
      (fun f _ k h => mem_keys_of_mem_specFetchData sampleGet f k h)
      cmPartial [] (cmPartial, dataA) (List.Mem.head _)⟩

/-! ## Reconciling with the collaborators of the specification -/

theorem afterRound_append (cm : ConfigMap) (s t : List (Event φ ε)) :
    afterRound cm (s ++ t) = afterRound (afterRound cm s) t := by
  induction s generalizing cm with
  | nil => rfl
  | cons e s ih =>
    cases e with
    | update c d err => cases err <;> simp [afterRound, ih]
    | parse u => simp [afterRound, ih]
    | exclude f d => simp [afterRound, ih]
    | fetch f d err => simp [afterRound, ih]
    | log entry => simp [afterRound, ih]

theorem afterRound_fetchLog (cm cm0 : ConfigMap) (err : Option ε) :
    afterRound cm (fetchLog cm0 err : List (Event φ ε)) = cm := by
  cases err <;> rfl

theorem afterRound_updateLog (cm cm0 : ConfigMap) (data : GoMap) (err : Option ε)
    (t : List (Event φ ε)) :
    afterRound cm (updateLog cm0 data err :: t) = afterRound cm t := by
  cases err <;> rfl

theorem afterRound_no_update (cm cm0 : ConfigMap) (urls : String) (f f1 : φ)
    (data : GoMap) (err : Option ε) (last : Entry ε) :
    afterRound cm
      ([Event.parse urls, Event.exclude f cm0.Data, Event.fetch f1 data err]
        ++ fetchLog cm0 err ++ [Event.log last]) = cm := by
  rw [afterRound_append, afterRound_append]
  simp [afterRound, afterRound_fetchLog]

theorem afterRound_written (cm cm0 : ConfigMap) (urls : String) (f f1 : φ)
    (data : GoMap) (err : Option ε) :
    afterRound cm
      ([Event.parse urls, Event.exclude f cm0.Data, Event.fetch f1 data err]
        ++ fetchLog cm0 err
        ++ [Event.update cm0 data none, updateLog cm0 data none]) =
      ⟨cm.Name, cm.Namespace, cm.Annotations, mergeData cm.Data data⟩ := by
  rw [afterRound_append, afterRound_append]
  simp [afterRound, afterRound_fetchLog, afterRound_updateLog]

/-- A reconciliation with the collaborators of the specification, once the
annotation is present and parses. -/
theorem spec_steps (parse : String → Option DirectiveSet) (get : String → Option String)
    (upd : ConfigMap → GoMap → Option SpecError) (cm : ConfigMap) (w : List String)
    (urls : String) (ds : DirectiveSet)
    (hparse : parse urls = some ds) :
    (specCollaborators parse get upd).PageFetcherFromString urls w = (Except.ok ds, w) ∧
      (specCollaborators parse get upd).Exclude ds cm.Data w =
        (specExclude ds cm.Data, w) ∧
      (specCollaborators parse get upd).Fetch (specExclude ds cm.Data) w =
        ((specFetchData get (specExclude ds cm.Data).entries,
            specFetchErr get (specExclude ds cm.Data)),
          w ++ (specExclude ds cm.Data).entries.map (fun e => e.2)) := by
  refine ⟨?_, rfl, rfl⟩
  simp [specCollaborators, hparse]

theorem len_eq_zero_iff (m : GoMap) : m.len = 0 ↔ m = ∅ := by
  constructor
  · intro h
    apply AList.ext
    simpa [GoMap.len] using h
  · rintro rfl
    rfl

theorem specExclude_eq_empty (ds : DirectiveSet) (existing : GoMap)
    (hkeys : ∀ k, k ∈ ds → k ∈ existing) : specExclude ds existing = ∅ := by
  apply AList.ext
  rw [AList.empty_entries, List.eq_nil_iff_forall_not_mem]
  intro e he
  rw [mem_specExclude_entries] at he
  exact he.2 (hkeys e.1 (List.mem_map_of_mem Sigma.fst he.1))

/-- The trace of a reconciliation, with the collaborators of the
specification, of a snapshot whose data has every key of the Directive Set. -/
theorem spec_all_present (parse : String → Option DirectiveSet)
    (get : String → Option String) (upd : ConfigMap → GoMap → Option SpecError)
    (cm : ConfigMap) (w : List String) (urls : String) (ds : DirectiveSet)
    (hann : cm.Annotations.lookup curlAnnotation = some urls)
    (hparse : parse urls = some ds)
    (hkeys : ∀ k, k ∈ ds → k ∈ cm.Data) :
    curlConfigMap (specCollaborators parse get upd) cm w =
      ([Event.parse urls, Event.exclude ds cm.Data, Event.fetch ∅ ∅ none,
        logEvent cm Level.info "Leaving configmap already processed" none none], w) := by
  obtain ⟨h1, h2, h3⟩ := spec_steps parse get upd cm w urls ds hparse
  rw [specExclude_eq_empty ds cm.Data hkeys] at h2 h3
  have h4 : (specCollaborators parse get upd).Fetch ∅ w = ((∅, none), w) := by
    rw [h3]
    simp [specFetchData, specFetchErr]
  rw [curlConfigMap_empty _ cm w w w w urls ds ∅ ∅ none hann h1 h2 h4 rfl]
  simp [fetchLog]

/-- C8, as amended (scenario 2): when the data of the snapshot has every key
of the parsed Directive Set, `Exclude` leaves the Directive Set empty;
`curlConfigMap` still calls `Fetch`, once, on the empty Directive Set, which
requests no URL and returns the empty mapping; `UpdateData` is not called. -/
theorem all_keys_present_no_update (parse : String → Option DirectiveSet)
    (get : String → Option String) (upd : ConfigMap → GoMap → Option SpecError)
    (cm : ConfigMap) (w : List String) (urls : String) (ds : DirectiveSet)
    (hann : cm.Annotations.lookup curlAnnotation = some urls)
    (hparse : parse urls = some ds)
    (hkeys : ∀ k, k ∈ ds → k ∈ cm.Data) :
    specExclude ds cm.Data = ∅ ∧
      fetchCalls (curlConfigMap (specCollaborators parse get upd) cm w).1 = [(∅, ∅)] ∧
      (curlConfigMap (specCollaborators parse get upd) cm w).2 = w ∧
      updateCalls (curlConfigMap (specCollaborators parse get upd) cm w).1 = [] := by
  rw [spec_all_present parse get upd cm w urls ds hann hparse hkeys]
  exact ⟨specExclude_eq_empty ds cm.Data hkeys, by simp [fetchCalls, logEvent], rfl,
    by simp [updateCalls, logEvent]⟩

/-- Instance of C8 as amended: scenario 2 of section 8. -/
theorem all_keys_present_no_update_witness :
    specExclude directivesFoo cmScenario2.Data = ∅ ∧
      fetchCalls (curlConfigMap (specCollaborators sampleParse sampleGet updOk)
        cmScenario2 []).1 = [(∅, ∅)] ∧
      (curlConfigMap (specCollaborators sampleParse sampleGet updOk) cmScenario2 []).2 = [] ∧
      updateCalls (curlConfigMap (specCollaborators sampleParse sampleGet updOk)
        cmScenario2 []).1 = [] :=
  all_keys_present_no_update sampleParse sampleGet updOk cmScenario2 [] "foo=http://x/1"
    directivesFoo rfl rfl
    (fun k hk => by
      have h1 : k ∈ ["foo"] := hk
      have h2 : k = "foo" := by simpa using h1
      subst h2
      exact List.Mem.head _)

/-- C8 as stated fails on scenario 2: the annotation is present, it parses to
the Directive Set with the one key foo, the data has the key foo, and the
trace of `curlConfigMap` has one call of `Fetch`. -/
theorem scenario2_fetch_called :
    cmScenario2.Annotations.lookup curlAnnotation = some "foo=http://x/1" ∧
      sampleParse "foo=http://x/1" = some directivesFoo ∧
      directivesFoo.keys = ["foo"] ∧
      cmScenario2.Data.lookup "foo" = some "hello" ∧
      (fetchCalls (curlConfigMap (specCollaborators sampleParse sampleGet updOk)
        cmScenario2 []).1).length = 1 :=
  ⟨rfl, rfl, rfl, rfl, rfl⟩

/-! ## Idempotence -/

/-- After the mapping fetched in one round has been merged into the data, the
directives that `Exclude` leaves are those whose retrieval failed, so with the
same retrieval outcomes the next `Fetch` returns the empty mapping. -/
theorem spec_second_fetch_empty (get : String → Option String) (ds : DirectiveSet)
    (prior : GoMap) :
    specFetchData get
      (specExclude ds
        (mergeData prior (specFetchData get (specExclude ds prior).entries))).entries = ∅ := by
  apply specFetchData_eq_empty
  intro e he
  rw [mem_specExclude_entries] at he
  obtain ⟨hds, hnot⟩ := he
  simp only [mergeData, AList.mem_union, not_or] at hnot
  obtain ⟨hnew, hprior⟩ := hnot
  rcases hg : get e.2 with _ | content
  · rfl
  · exfalso
    apply hnew
    rw [mem_specFetchData]
    exact ⟨e, (mem_specExclude_entries ds prior e).mpr ⟨hds, hprior⟩, rfl, by simp [hg]⟩

/-- C6 (idempotence): with the collaborators of the specification, the same
annotation grammar and the same outcome for every URL, reconcile a snapshot,
let the write-back of that round (if any) take effect, and reconcile the
resulting snapshot: the second round makes no call of `UpdateData` and every
mapping its `Fetch` returns is empty. -/
theorem idempotence (parse : String → Option DirectiveSet) (get : String → Option String)
    (upd : ConfigMap → GoMap → Option SpecError) (cm : ConfigMap) (w : List String)
    (hwrite : ∀ cm1 d e, Event.update cm1 d (some e) ∉
      (curlConfigMap (specCollaborators parse get upd) cm w).1) :
    updateCalls (curlConfigMap (specCollaborators parse get upd)
        (afterRound cm (curlConfigMap (specCollaborators parse get upd) cm w).1)
        (curlConfigMap (specCollaborators parse get upd) cm w).2).1 = [] ∧
      ∀ p ∈ fetchCalls (curlConfigMap (specCollaborators parse get upd)
        (afterRound cm (curlConfigMap (specCollaborators parse get upd) cm w).1)
        (curlConfigMap (specCollaborators parse get upd) cm w).2).1, p.2 = ∅ := by
  rcases hann : cm.Annotations.lookup curlAnnotation with _ | urls
  · have h : ∀ w0, curlConfigMap (specCollaborators parse get upd) cm w0 =
        ([logEvent cm Level.info "Skipping configmap without annotation" none none],
          w0) := by
      intro w0
      simp [curlConfigMap, hann]
    rw [h w]
    simp only [afterRound, logEvent]
    rw [h w]
    simp [updateCalls, fetchCalls, logEvent]
  · rcases hparse : parse urls with _ | ds
    · have h : ∀ w0, curlConfigMap (specCollaborators parse get upd) cm w0 =
          ([Event.parse urls,
            logEvent cm Level.error "Cannot parse URLs" (some SpecError.parseError) none],
            w0) := by
        intro w0
        simp [curlConfigMap, hann, specCollaborators, hparse]
      rw [h w]
      simp only [afterRound, logEvent]
      rw [h w]
      simp [updateCalls, fetchCalls, logEvent]
    · by_cases hlen : (specFetchData get (specExclude ds cm.Data).entries).len = 0
      · have h : ∀ w0, curlConfigMap (specCollaborators parse get upd) cm w0 =
            ([Event.parse urls, Event.exclude ds cm.Data,
                Event.fetch (specExclude ds cm.Data)
                  (specFetchData get (specExclude ds cm.Data).entries)
                  (specFetchErr get (specExclude ds cm.Data))]
              ++ fetchLog cm (specFetchErr get (specExclude ds cm.Data))
              ++ [logEvent cm Level.info "Leaving configmap already processed" none none],
              w0 ++ (specExclude ds cm.Data).entries.map (fun e => e.2)) := by
          intro w0
          obtain ⟨h1, h2, h3⟩ := spec_steps parse get upd cm w0 urls ds hparse
          exact curlConfigMap_empty _ cm w0 w0 w0 _ urls ds _ _ _ hann h1 h2 h3 hlen
        rw [h w]
        simp only [logEvent, afterRound_no_update]
        rw [h]
        simp [updateCalls, fetchCalls, (len_eq_zero_iff _).mp hlen]
      · have h : curlConfigMap (specCollaborators parse get upd) cm w =
            ([Event.parse urls, Event.exclude ds cm.Data,
                Event.fetch (specExclude ds cm.Data)
                  (specFetchData get (specExclude ds cm.Data).entries)
                  (specFetchErr get (specExclude ds cm.Data))]
              ++ fetchLog cm (specFetchErr get (specExclude ds cm.Data))
              ++ [Event.update cm (specFetchData get (specExclude ds cm.Data).entries)
                    (upd cm (specFetchData get (specExclude ds cm.Data).entries)),
                  updateLog cm (specFetchData get (specExclude ds cm.Data).entries)
                    (upd cm (specFetchData get (specExclude ds cm.Data).entries))],
              w ++ (specExclude ds cm.Data).entries.map (fun e => e.2)) := by
          obtain ⟨h1, h2, h3⟩ := spec_steps parse get upd cm w urls ds hparse
          exact curlConfigMap_update _ cm w w w _ urls ds _ _ _ hann h1 h2 h3 hlen
        have hupd : upd cm (specFetchData get (specExclude ds cm.Data).entries) = none := by
          rcases hu : upd cm (specFetchData get (specExclude ds cm.Data).entries) with
            _ | e
          · rfl
          · exfalso
            apply hwrite cm (specFetchData get (specExclude ds cm.Data).entries) e
            rw [h, hu]
            simp
        have key : ∀ (cm2 : ConfigMap) (w0 : List String),
            cm2.Annotations = cm.Annotations →
            cm2.Data = mergeData cm.Data
              (specFetchData get (specExclude ds cm.Data).entries) →
            updateCalls (curlConfigMap (specCollaborators parse get upd) cm2 w0).1 = [] ∧
              ∀ p ∈ fetchCalls (curlConfigMap (specCollaborators parse get upd) cm2 w0).1,
                p.2 = ∅ := by
          intro cm2 w0 ha hd
          have hann2 : cm2.Annotations.lookup curlAnnotation = some urls := by
            rw [ha]
            exact hann
          obtain ⟨h1, h2, h3⟩ := spec_steps parse get upd cm2 w0 urls ds hparse
          rw [hd] at h3
          rw [spec_second_fetch_empty get ds cm.Data] at h3
          have h2b : (specCollaborators parse get upd).Exclude ds cm2.Data w0 =
              (specExclude ds (mergeData cm.Data
                (specFetchData get (specExclude ds cm.Data).entries)), w0) := by
            rw [h2, hd]
          rw [curlConfigMap_empty _ cm2 w0 w0 w0 _ urls ds _ _ _ hann2 h1 h2b h3 rfl]
          simp [updateCalls, fetchCalls, logEvent]
        rw [h, hupd]
        simp only [afterRound_written]
        exact key _ _ rfl rfl

/-- Instance of C6: scenario 4.  The first round writes the content of A; the
second round fetches B alone, which fails again, and writes nothing. -/
theorem idempotence_witness :
    updateCalls (curlConfigMap (specCollaborators sampleParse sampleGet updOk)
        cmScenario4 []).1 = [(cmScenario4, dataA)] ∧
      (updateCalls (curlConfigMap (specCollaborators sampleParse sampleGet updOk)
          (afterRound cmScenario4
            (curlConfigMap (specCollaborators sampleParse sampleGet updOk) cmScenario4 []).1)
          (curlConfigMap (specCollaborators sampleParse sampleGet updOk)
            cmScenario4 []).2).1 = [] ∧
        ∀ p ∈ fetchCalls (curlConfigMap (specCollaborators sampleParse sampleGet updOk)
          (afterRound cmScenario4
            (curlConfigMap (specCollaborators sampleParse sampleGet updOk) cmScenario4 []).1)
          (curlConfigMap (specCollaborators sampleParse sampleGet updOk)
            cmScenario4 []).2).1, p.2 = ∅) :=
  ⟨rfl, idempotence sampleParse sampleGet updOk cmScenario4 [] (by
    intro cm1 d e h
    have ht : (curlConfigMap (specCollaborators sampleParse sampleGet updOk)
        cmScenario4 []).1 =
        [Event.parse "A=http://a,B=http://b", Event.exclude directivesAB ∅,
          Event.fetch directivesAB dataA (some SpecError.fetchError),
          logEvent cmScenario4 Level.error "Cannot fetch URLs"
            (some SpecError.fetchError) none,
          Event.update cmScenario4 dataA none,
          logEvent cmScenario4 Level.info "Curled data into ConfigMap" none
            (some dataA)] := rfl
    rw [ht] at h
    simp [logEvent] at h)⟩

end K8sCurl
